import Mathlib

/-!
Shallow embedding of the VRR (variable refresh rate) controller and the
present-statistics data types of `libhwc2.1/libvrr`, together with proofs
of the specified properties.

The controller logic is translated from
`src/libhwc2.1/libvrr/VariableRefreshRateController.cpp`; the statistics
key/value types from
`src/libhwc2.1/libvrr/Statistics/VariableRefreshRateStatistic.h`.
Auxiliary declarations that live in headers not present under `src/`
(`VariableRefreshRateController.h`, enum orderings, ring capacity, the
wake-up constant) are modelled from the specification and are marked as
such in their doc comments.
-/

namespace VrrVerify

/-- Event kinds of the controller's timed event queue, per the spec's event
model (`RenderingTimeout`, `HibernateTimeout`, `NextFrameInsertion`,
`NotifyExpectedPresentConfig`, `StatisticsUpdate`). -/
inductive VrrControllerEventType where
  | kRenderingTimeout
  | kHibernateTimeout
  | kNextFrameInsertion
  | kNotifyExpectedPresentConfig
  | kStatisticsUpdate
deriving DecidableEq, Repr

open VrrControllerEventType

/-- One timed event: the kind and the absolute deadline in nanoseconds,
mirroring `VrrControllerEvent`'s `mEventType` and `mWhenNs`. -/
structure VrrControllerEvent where
  mEventType : VrrControllerEventType
  mWhenNs : Int
deriving DecidableEq, Repr

/-- Nested configuration carrying the rendering-to-hibernation grace period,
mirroring `notifyExpectedPresentConfig.TimeoutNs`. -/
structure NotifyExpectedPresentConfigT where
  TimeoutNs : Int
deriving DecidableEq, Repr

/-- Per-configuration VRR parameters (`VrrConfig_t`): the minimum frame
interval and the nested timeout configuration. -/
structure VrrConfig where
  minFrameIntervalNs : Int
  notifyExpectedPresentConfig : NotifyExpectedPresentConfigT
deriving DecidableEq, Repr

/-- Modelled from the spec: a value-initialized `VrrConfig_t`, produced when
C++ `operator[]` on the config map misses; field values are irrelevant to
every property proved here. -/
def defaultVrrConfig : VrrConfig := ⟨0, ⟨0⟩⟩

/-- Controller states `kDisable`, `kRendering`, `kHibernate`. -/
inductive VrrControllerState where
  | kDisable
  | kRendering
  | kHibernate
deriving DecidableEq, Repr

open VrrControllerState

/-- An expected-present descriptor `(config, time, duration)`, as stored in
`mNextExpectedPresentTime` / `mPendingCurrentPresentTime`. -/
structure ExpectedPresent where
  config : Nat
  time : Int
  duration : Int
deriving DecidableEq, Repr

/-- Modelled from the spec: capacity of the present-history ring; the header
defining the concrete constant is not under `src/`, the spec requires a
fixed capacity of at least 8. -/
def kPresentHistorySize : Nat := 8

/-- Modelled from the spec: fixed-capacity ring of recent present records,
newest first, overwriting the oldest on wrap (`mRecord.mPresentHistory`).
The ring class itself lives in a header not under `src/`. -/
structure PresentHistoryRing where
  entries : List ExpectedPresent
deriving DecidableEq, Repr

/-- Writing through `next()` stores the new record as the most recent entry
and evicts the oldest once the fixed capacity is exceeded. -/
def PresentHistoryRing.next (r : PresentHistoryRing) (v : ExpectedPresent) :
    PresentHistoryRing :=
  ⟨(v :: r.entries).take kPresentHistorySize⟩

/-- The controller's record block `mRecord`: the next-expected-present hint,
the pending current-present descriptor, and the present history ring. -/
structure VrrRecord where
  mNextExpectedPresentTime : Option ExpectedPresent
  mPendingCurrentPresentTime : Option ExpectedPresent
  mPresentHistory : PresentHistoryRing
deriving DecidableEq, Repr

/-- Modelled from the spec: `mRecord.clear()` (declared in a header not under
`src/`) clears the present ring and both pending descriptors, per the spec's
description of `reset()`. -/
def VrrRecord.clear (_ : VrrRecord) : VrrRecord := ⟨none, none, ⟨[]⟩⟩

/-- Modelled from the spec: `kDefaultWakeUpTimeInPowerSaving` is defined in a
header not under `src/`; its exact value does not matter for any property
proved here, only that it is a fixed constant. -/
def kDefaultWakeUpTimeInPowerSaving : Int := 100000000

/-- The mutable state of one `VariableRefreshRateController` instance: the
state-machine state, the enable and exit flags, the config table, the active
config id, the timed event queue (kept sorted by deadline, FIFO on ties, per
the spec's queue ordering — the event comparator lives in a header not under
`src/`), the frame-insertion counter, and the record block. -/
structure ControllerState where
  mState : VrrControllerState
  mEnabled : Bool
  mThreadExit : Bool
  mVrrConfigs : List (Nat × VrrConfig)
  mVrrActiveConfig : Nat
  mEventQueue : List VrrControllerEvent
  mPendingFramesToInsert : Int
  mRecord : VrrRecord
deriving DecidableEq, Repr

/-- Modelled from the spec: the freshly constructed controller is in
`kDisable`, disabled, with an empty queue, no pending frames and an empty
record (member initializers live in a header not under `src/`; the spec
fixes the initial state as `Disable`). -/
def initialState : ControllerState :=
  { mState := kDisable
    mEnabled := false
    mThreadExit := false
    mVrrConfigs := []
    mVrrActiveConfig := 0
    mEventQueue := []
    mPendingFramesToInsert := 0
    mRecord := ⟨none, none, ⟨[]⟩⟩ }

/-- Insert an event into the queue, keeping it sorted by `mWhenNs` ascending
with insertion order preserved among equal deadlines; this realises
`postEvent` together with the earliest-first queue ordering. -/
def postEventQ (q : List VrrControllerEvent) (e : VrrControllerEvent) :
    List VrrControllerEvent :=
  match q with
  | [] => [e]
  | x :: xs => if e.mWhenNs < x.mWhenNs then e :: x :: xs else x :: postEventQ xs e

/-- Remove every entry of the given kind, as `dropEventLocked(event_type)`
does by rebuilding the priority queue without them. -/
def dropType (q : List VrrControllerEvent) (t : VrrControllerEventType) :
    List VrrControllerEvent :=
  q.filter (fun e => e.mEventType ≠ t)

/-- Number of queued events of a given kind. -/
def countType (q : List VrrControllerEvent) (t : VrrControllerEventType) : Nat :=
  (q.filter (fun e => e.mEventType = t)).length

/-- C++ `unordered_map::operator[]`: return the mapped config, inserting a
value-initialized one when the key is absent; the possibly-extended table is
returned alongside. -/
def indexConfig (cfgs : List (Nat × VrrConfig)) (id : Nat) :
    VrrConfig × List (Nat × VrrConfig) :=
  match cfgs.lookup id with
  | some c => (c, cfgs)
  | none => (defaultVrrConfig, cfgs ++ [(id, defaultVrrConfig)])

/-- Post one event onto the controller's queue (`postEvent(type, when)`). -/
def ControllerState.postEvent (s : ControllerState) (t : VrrControllerEventType)
    (when : Int) : ControllerState :=
  { s with mEventQueue := postEventQ s.mEventQueue ⟨t, when⟩ }

/-- Public entry `notifyExpectedPresent(timestamp, frameIntervalNs)`: record
the next-expected-present hint for the active config and post a
`kNotifyExpectedPresentConfig` event at the current time. -/
def notifyExpectedPresent (s : ControllerState) (now timestamp : Int)
    (frameIntervalNs : Int) : ControllerState :=
  let s := { s with mRecord := { s.mRecord with
    mNextExpectedPresentTime := some ⟨s.mVrrActiveConfig, timestamp, frameIntervalNs⟩ } }
  s.postEvent kNotifyExpectedPresentConfig now

/-- Public entry `reset()`: empty the event queue and clear the record. -/
def reset (s : ControllerState) : ControllerState :=
  { s with mEventQueue := [], mRecord := s.mRecord.clear }

/-- Public entry `setActiveVrrConfiguration(config)`: reject an id missing
from the table; otherwise enter `kRendering`, set the active id, drop every
queued `kRenderingTimeout` and post a fresh one at `now + TimeoutNs`. -/
def setActiveVrrConfiguration (s : ControllerState) (now : Int) (config : Nat) :
    ControllerState :=
  match s.mVrrConfigs.lookup config with
  | none => s
  | some cfg =>
    let s := { s with
      mState := kRendering
      mVrrActiveConfig := config
      mEventQueue := dropType s.mEventQueue kRenderingTimeout }
    s.postEvent kRenderingTimeout (now + cfg.notifyExpectedPresentConfig.TimeoutNs)

/-- Public entry `setEnable(isEnabled)`: when the flag already has the
requested value, return without signalling the worker; otherwise store it,
drop all events on disable, and signal. The second component records whether
`mCondition.notify_all()` was reached. -/
def setEnable (s : ControllerState) (isEnabled : Bool) : ControllerState × Bool :=
  if s.mEnabled = isEnabled then (s, false)
  else
    let s := { s with mEnabled := isEnabled }
    let s := if s.mEnabled = false then { s with mEventQueue := [] } else s
    (s, true)

/-- Public entry `setVrrConfigurations(configs)`: replace the whole table. -/
def setVrrConfigurations (s : ControllerState) (configs : List (Nat × VrrConfig)) :
    ControllerState :=
  { s with mVrrConfigs := configs }

/-- Public entry `stopThread()`: request worker exit, disable, and fall back
to `kDisable`. -/
def stopThread (s : ControllerState) : ControllerState :=
  { s with mThreadExit := true, mEnabled := false, mState := kDisable }

/-- Public entry `onPresent()`: without a pending descriptor, warn and
return unchanged. Otherwise append the descriptor to the history ring and
clear it; leaving `kHibernate` drops `kHibernateTimeout`; always drop
`kRenderingTimeout` and `kNextFrameInsertion` and post a fresh
`kRenderingTimeout` at `now` plus the active config's timeout (read through
`operator[]`). -/
def onPresent (s : ControllerState) (now : Int) : ControllerState :=
  match s.mRecord.mPendingCurrentPresentTime with
  | none => s
  | some p =>
    let s := { s with mRecord := { s.mRecord with
      mPresentHistory := s.mRecord.mPresentHistory.next p
      mPendingCurrentPresentTime := none } }
    let s :=
      if s.mState = kHibernate then
        { s with
          mState := kRendering
          mEventQueue := dropType s.mEventQueue kHibernateTimeout }
      else s
    let s := { s with
      mEventQueue := dropType (dropType s.mEventQueue kRenderingTimeout) kNextFrameInsertion }
    let pr := indexConfig s.mVrrConfigs s.mVrrActiveConfig
    let s := { s with mVrrConfigs := pr.2 }
    s.postEvent kRenderingTimeout (now + pr.1.notifyExpectedPresentConfig.TimeoutNs)

/-- Public entry `setExpectedPresentTime(timestampNanos, frameIntervalNs)`:
store the pending current-present descriptor for the active config. -/
def setExpectedPresentTime (s : ControllerState) (timestampNanos : Int)
    (frameIntervalNs : Int) : ControllerState :=
  { s with mRecord := { s.mRecord with
    mPendingCurrentPresentTime := some ⟨s.mVrrActiveConfig, timestampNanos, frameIntervalNs⟩ } }

/-- Frame-insertion step `doFrameInsertionLocked()`: error out on a
non-positive counter; on write failure return `-1` without touching the
counter; on success decrement, and while frames remain schedule the next
`kNextFrameInsertion` at `now + minFrameIntervalNs` (config read through
`operator[]`). `writeOk` is the outcome of `WriteCommandString`. -/
def doFrameInsertionLocked (s : ControllerState) (now : Int) (writeOk : Bool) :
    ControllerState × Int :=
  if s.mPendingFramesToInsert ≤ 0 then (s, -1)
  else if writeOk = false then (s, -1)
  else
    let s := { s with mPendingFramesToInsert := s.mPendingFramesToInsert - 1 }
    if s.mPendingFramesToInsert > 0 then
      let pr := indexConfig s.mVrrConfigs s.mVrrActiveConfig
      let s := { s with mVrrConfigs := pr.2 }
      (s.postEvent kNextFrameInsertion (now + pr.1.minFrameIntervalNs), 1)
    else (s, 1)

/-- Burst variant `doFrameInsertionLocked(frames)`: overwrite the counter,
then run one insertion step. -/
def doFrameInsertionLockedN (s : ControllerState) (now : Int) (writeOk : Bool)
    (frames : Int) : ControllerState × Int :=
  doFrameInsertionLocked { s with mPendingFramesToInsert := frames } now writeOk

/-- Handler `handleHibernate()`: start a burst of `kNumFramesToInsert = 2`
inserted frames and post `kHibernateTimeout` at `now` plus the wake-up
constant. -/
def handleHibernate (s : ControllerState) (now : Int) (writeOk : Bool) :
    ControllerState :=
  let s := (doFrameInsertionLockedN s now writeOk 2).1
  s.postEvent kHibernateTimeout (now + kDefaultWakeUpTimeInPowerSaving)

/-- Handler `handleStayHibernate()`: repost `kHibernateTimeout` at `now`
plus the wake-up constant. -/
def handleStayHibernate (s : ControllerState) (now : Int) : ControllerState :=
  s.postEvent kHibernateTimeout (now + kDefaultWakeUpTimeInPowerSaving)

/-- Handler `handleCadenceChange()`: without a hint, warn and change
nothing; otherwise consume the hint. -/
def handleCadenceChange (s : ControllerState) : ControllerState :=
  match s.mRecord.mNextExpectedPresentTime with
  | none => s
  | some _ =>
    { s with mRecord := { s.mRecord with mNextExpectedPresentTime := none } }

/-- Handler `handleResume()`: without a hint, warn and change nothing;
otherwise consume the hint. The `kRendering` transition is performed by the
worker, not here. -/
def handleResume (s : ControllerState) : ControllerState :=
  match s.mRecord.mNextExpectedPresentTime with
  | none => s
  | some _ =>
    { s with mRecord := { s.mRecord with mNextExpectedPresentTime := none } }

/-- Dispatch of one popped event on (state, kind), exactly as the two
`switch` blocks of `threadBody` do. In `kRendering`: `kRenderingTimeout`
runs `handleHibernate` and enters `kHibernate`;
`kNotifyExpectedPresentConfig` runs `handleCadenceChange`; everything else
is ignored. In any other state (the `else` branch, which also catches
`kDisable`): `kHibernateTimeout` runs `handleStayHibernate`;
`kNotifyExpectedPresentConfig` runs `handleResume` and enters `kRendering`;
`kNextFrameInsertion` runs one insertion step; everything else is
ignored. -/
def dispatchEvent (s : ControllerState) (e : VrrControllerEvent) (now : Int)
    (writeOk : Bool) : ControllerState :=
  if s.mState = kRendering then
    match e.mEventType with
    | kRenderingTimeout => { handleHibernate s now writeOk with mState := kHibernate }
    | kNotifyExpectedPresentConfig => handleCadenceChange s
    | _ => s
  else
    match e.mEventType with
    | kHibernateTimeout => handleStayHibernate s now
    | kNotifyExpectedPresentConfig => { handleResume s with mState := kRendering }
    | kNextFrameInsertion => (doFrameInsertionLocked s now writeOk).1
    | _ => s

/-- One worker iteration of `threadBody` that reaches the dispatch point:
with the exit flag set, the worker disabled, an empty queue, or the earliest
deadline still in the future, nothing is dispatched; otherwise the earliest
event is popped and dispatched by `dispatchEvent`. -/
def workerDispatch (s : ControllerState) (now : Int) (writeOk : Bool) :
    ControllerState :=
  if s.mThreadExit then s
  else if s.mEnabled = false then s
  else
    match s.mEventQueue with
    | [] => s
    | e :: rest =>
      if now < e.mWhenNs then s
      else dispatchEvent { s with mEventQueue := rest } e now writeOk

/-- One public operation or worker dispatch, with the external inputs (clock
readings, panel-write outcome) it consumes. -/
inductive Op where
  | opNotifyExpectedPresent (now timestamp frameIntervalNs : Int)
  | opReset
  | opSetActiveVrrConfiguration (now : Int) (config : Nat)
  | opSetEnable (isEnabled : Bool)
  | opSetVrrConfigurations (configs : List (Nat × VrrConfig))
  | opStopThread
  | opOnPresent (now : Int)
  | opSetExpectedPresentTime (timestampNanos frameIntervalNs : Int)
  | opWorkerDispatch (now : Int) (writeOk : Bool)
deriving DecidableEq, Repr

/-- Interpretation of one operation on the controller state. -/
def applyOp (s : ControllerState) : Op → ControllerState
  | .opNotifyExpectedPresent now ts fi => notifyExpectedPresent s now ts fi
  | .opReset => reset s
  | .opSetActiveVrrConfiguration now config => setActiveVrrConfiguration s now config
  | .opSetEnable b => (setEnable s b).1
  | .opSetVrrConfigurations cfgs => setVrrConfigurations s cfgs
  | .opStopThread => stopThread s
  | .opOnPresent now => onPresent s now
  | .opSetExpectedPresentTime ts fi => setExpectedPresentTime s ts fi
  | .opWorkerDispatch now ok => workerDispatch s now ok

/-- Run a sequence of operations from a state. -/
def runOps (s : ControllerState) (ops : List Op) : ControllerState :=
  ops.foldl applyOp s

/-- A state is reachable when some sequence of public operations and worker
dispatches produces it from the freshly constructed controller. -/
def Reachable (s : ControllerState) : Prop :=
  ∃ ops : List Op, runOps initialState ops = s

/-- Whether an operation is a worker dispatch. -/
def Op.isWorkerDispatch : Op → Bool
  | .opWorkerDispatch _ _ => true
  | _ => false

/-- Power-mode values from `hardware/hwcomposer_defs.h`:
`HWC_POWER_MODE_OFF = 0`. -/
def HWC_POWER_MODE_OFF : Int := 0

/-- Power-mode value `HWC_POWER_MODE_DOZE = 1`. -/
def HWC_POWER_MODE_DOZE : Int := 1

/-- Power-mode value `HWC_POWER_MODE_NORMAL = 2`. -/
def HWC_POWER_MODE_NORMAL : Int := 2

/-- Power-mode value `HWC_POWER_MODE_DOZE_SUSPEND = 3`. -/
def HWC_POWER_MODE_DOZE_SUSPEND : Int := 3

/-- Modelled from the spec: the `BrightnessMode` enum (declared in a header
not under `src/`) has the usable values low, normal, high plus an invalid
sentinel; C++ compares enumerators by underlying value, modelled by
`toInt` in declaration order. -/
inductive BrightnessMode where
  | kLowBrightnessMode
  | kNormalBrightnessMode
  | kHighBrightnessMode
  | kInvalidBrightnessMode
deriving DecidableEq, Repr

/-- Underlying integer of a `BrightnessMode` enumerator. -/
def BrightnessMode.toInt : BrightnessMode → Int
  | .kLowBrightnessMode => 0
  | .kNormalBrightnessMode => 1
  | .kHighBrightnessMode => 2
  | .kInvalidBrightnessMode => 3

/-- Statistics key fragment `DisplayStatus`: active config id (a
`hwc2_config_t`, unsigned), power mode (a C `int`) and brightness mode. -/
structure DisplayStatus where
  mActiveConfigId : Nat
  mPowerMode : Int
  mBrightnessMode : BrightnessMode
deriving DecidableEq, Repr

/-- Member `DisplayStatus::isOff()`: true exactly for power modes
`HWC_POWER_MODE_OFF` and `HWC_POWER_MODE_DOZE_SUSPEND`. -/
def DisplayStatus.isOff (s : DisplayStatus) : Bool :=
  s.mPowerMode = HWC_POWER_MODE_OFF ∨ s.mPowerMode = HWC_POWER_MODE_DOZE_SUSPEND

/-- Member `DisplayStatus::operator==`: when either side is off, equality of
the off-flags decides; otherwise field-wise comparison. -/
def DisplayStatus.eq (a b : DisplayStatus) : Bool :=
  if a.isOff || b.isOff then a.isOff = b.isOff
  else a.mActiveConfigId = b.mActiveConfigId ∧ a.mPowerMode = b.mPowerMode ∧
    a.mBrightnessMode = b.mBrightnessMode

/-- Member `DisplayStatus::operator<`: when either side is off and both
off-flags agree, the result is false; in every other case the comparison
falls through to the lexicographic comparison of the raw fields
(power mode, then active config id, then brightness mode). -/
def DisplayStatus.lt (a b : DisplayStatus) : Bool :=
  if (a.isOff || b.isOff) && (a.isOff == b.isOff) then false
  else if a.mPowerMode ≠ b.mPowerMode then a.mPowerMode < b.mPowerMode
  else if a.mActiveConfigId ≠ b.mActiveConfigId then a.mActiveConfigId < b.mActiveConfigId
  else a.mBrightnessMode.toInt < b.mBrightnessMode.toInt

/-- Lexicographic comparison on (power mode, active config id, brightness
mode), written after the spec's words for the non-off branch of the order;
used to compare the source order against the specified one. -/
def DisplayStatus.ltLexSpec (a b : DisplayStatus) : Bool :=
  if a.mPowerMode ≠ b.mPowerMode then a.mPowerMode < b.mPowerMode
  else if a.mActiveConfigId ≠ b.mActiveConfigId then a.mActiveConfigId < b.mActiveConfigId
  else a.mBrightnessMode.toInt < b.mBrightnessMode.toInt

/-- Statistics value `DisplayPresentRecord`: a present count and last
timestamp (both `uint64_t`, so arithmetic is modulo `2^64`) and the
`mUpdated` flag. -/
structure DisplayPresentRecord where
  mCount : Nat
  mLastTimeStampNs : Nat
  mUpdated : Bool
deriving DecidableEq, Repr

/-- Member `DisplayPresentRecord::operator+=`: accumulate the count (with
`uint64_t` wraparound), take the larger timestamp, and set `mUpdated` to
true. -/
def DisplayPresentRecord.addAssign (a b : DisplayPresentRecord) :
    DisplayPresentRecord :=
  let a := { a with mCount := (a.mCount + b.mCount) % 2 ^ 64 }
  let a := { a with mLastTimeStampNs := max a.mLastTimeStampNs b.mLastTimeStampNs }
  { a with mUpdated := true }

/-! Helper lemmas about the queue operations. -/

theorem postEventQ_append (q : List VrrControllerEvent) (e : VrrControllerEvent) :
    ∃ l r, q = l ++ r ∧ postEventQ q e = l ++ e :: r := by
  induction q with
  | nil => exact ⟨[], [], rfl, rfl⟩
  | cons x xs ih =>
    by_cases h : e.mWhenNs < x.mWhenNs
    · exact ⟨[], x :: xs, rfl, by simp [postEventQ, h]⟩
    · obtain ⟨l, r, hq, hp⟩ := ih
      exact ⟨x :: l, r, by simp [hq], by simp [postEventQ, h, hp]⟩

theorem countType_cons (x : VrrControllerEvent) (q : List VrrControllerEvent)
    (t : VrrControllerEventType) :
    countType (x :: q) t = (if x.mEventType = t then 1 else 0) + countType q t := by
  unfold countType
  by_cases hx : x.mEventType = t <;> simp [hx] <;> omega

theorem dropType_cons (x : VrrControllerEvent) (q : List VrrControllerEvent)
    (u : VrrControllerEventType) :
    dropType (x :: q) u =
      if x.mEventType = u then dropType q u else x :: dropType q u := by
  unfold dropType
  by_cases hx : x.mEventType = u <;> simp [hx]

theorem countType_postEventQ (q : List VrrControllerEvent) (e : VrrControllerEvent)
    (t : VrrControllerEventType) :
    countType (postEventQ q e) t =
      countType q t + (if e.mEventType = t then 1 else 0) := by
  obtain ⟨l, r, hq, hp⟩ := postEventQ_append q e
  subst hq
  rw [hp]
  unfold countType
  by_cases he : e.mEventType = t <;> simp [List.filter_append, he] <;> omega

theorem countType_dropType_self (q : List VrrControllerEvent)
    (t : VrrControllerEventType) : countType (dropType q t) t = 0 := by
  induction q with
  | nil => rfl
  | cons x xs ih =>
    rw [dropType_cons]
    by_cases hx : x.mEventType = t
    · simpa [hx] using ih
    · rw [if_neg hx, countType_cons, if_neg hx, ih]

theorem countType_dropType_ne (q : List VrrControllerEvent)
    (t u : VrrControllerEventType) (h : t ≠ u) :
    countType (dropType q u) t = countType q t := by
  induction q with
  | nil => rfl
  | cons x xs ih =>
    rw [dropType_cons, countType_cons]
    by_cases hxu : x.mEventType = u
    · have hx : ¬x.mEventType = t := by rw [hxu]; exact fun hh => h hh.symm
      rw [if_pos hxu, if_neg hx, ih]
      omega
    · rw [if_neg hxu, countType_cons, ih]

theorem countType_cons_le (x : VrrControllerEvent) (xs : List VrrControllerEvent)
    (t : VrrControllerEventType) : countType xs t ≤ countType (x :: xs) t := by
  rw [countType_cons]
  omega

theorem filter_postEventQ_of_ne (q : List VrrControllerEvent)
    (e : VrrControllerEvent) (p : VrrControllerEvent → Bool) (he : p e = false) :
    (postEventQ q e).filter p = q.filter p := by
  obtain ⟨l, r, hq, hp⟩ := postEventQ_append q e
  subst hq
  rw [hp]
  simp [List.filter_append, he]

theorem filter_postEventQ_of_nil (q : List VrrControllerEvent)
    (e : VrrControllerEvent) (p : VrrControllerEvent → Bool)
    (hq : q.filter p = []) (he : p e = true) :
    (postEventQ q e).filter p = [e] := by
  obtain ⟨l, r, hql, hp⟩ := postEventQ_append q e
  subst hql
  rw [hp]
  rw [List.filter_append] at hq
  have hl : l.filter p = [] := by
    cases hl : l.filter p with
    | nil => rfl
    | cons a as => rw [hl] at hq; simp at hq
  have hr : r.filter p = [] := by
    rw [hl] at hq; simpa using hq
  simp [List.filter_append, hl, hr, he]

theorem countType_postEvent (s : ControllerState) (t u : VrrControllerEventType)
    (w : Int) :
    countType (s.postEvent u w).mEventQueue t =
      countType s.mEventQueue t + (if u = t then 1 else 0) := by
  unfold ControllerState.postEvent
  simpa using countType_postEventQ s.mEventQueue ⟨u, w⟩ t

/-! Handler-level lemmas feeding the reachability invariant. -/

theorem doFrameInsertion_counter (s : ControllerState) (now : Int) (ok : Bool) :
    (doFrameInsertionLocked s now ok).1.mPendingFramesToInsert =
      s.mPendingFramesToInsert ∨
    ((doFrameInsertionLocked s now ok).1.mPendingFramesToInsert =
        s.mPendingFramesToInsert - 1 ∧ 0 < s.mPendingFramesToInsert) := by
  unfold doFrameInsertionLocked
  by_cases h1 : s.mPendingFramesToInsert ≤ 0
  · simp [h1]
  · by_cases h2 : ok = false
    · simp [h1, h2]
    · by_cases h3 : s.mPendingFramesToInsert - 1 > 0 <;>
        simp [h1, h2, h3, ControllerState.postEvent] <;> omega

theorem doFrameInsertion_countType (s : ControllerState) (now : Int) (ok : Bool)
    (t : VrrControllerEventType) (ht : t ≠ kNextFrameInsertion) :
    countType (doFrameInsertionLocked s now ok).1.mEventQueue t =
      countType s.mEventQueue t := by
  unfold doFrameInsertionLocked
  split
  · rfl
  · split
    · rfl
    · dsimp only
      split
      · simp only [ControllerState.postEvent]
        rw [countType_postEventQ]
        simp [Ne.symm ht]
      · rfl

theorem handleHibernate_counter (s : ControllerState) (now : Int) (ok : Bool) :
    (handleHibernate s now ok).mPendingFramesToInsert = 1 ∨
    (handleHibernate s now ok).mPendingFramesToInsert = 2 := by
  unfold handleHibernate doFrameInsertionLockedN
  rcases doFrameInsertion_counter
      { s with mPendingFramesToInsert := 2 } now ok with h | h
  · right; simpa [ControllerState.postEvent] using h
  · left; simpa [ControllerState.postEvent] using h.1

theorem handleHibernate_countType (s : ControllerState) (now : Int) (ok : Bool)
    (t : VrrControllerEventType) (ht1 : t ≠ kNextFrameInsertion)
    (ht2 : t ≠ kHibernateTimeout) :
    countType (handleHibernate s now ok).mEventQueue t =
      countType s.mEventQueue t := by
  unfold handleHibernate doFrameInsertionLockedN
  rw [countType_postEvent]
  rw [doFrameInsertion_countType _ _ _ _ ht1]
  simp [Ne.symm ht2]

theorem handleStayHibernate_countType (s : ControllerState) (now : Int)
    (t : VrrControllerEventType) (ht : t ≠ kHibernateTimeout) :
    countType (handleStayHibernate s now).mEventQueue t =
      countType s.mEventQueue t := by
  unfold handleStayHibernate
  rw [countType_postEvent]
  simp [Ne.symm ht]

theorem handleCadenceChange_fields (s : ControllerState) :
    (handleCadenceChange s).mEventQueue = s.mEventQueue ∧
    (handleCadenceChange s).mPendingFramesToInsert = s.mPendingFramesToInsert := by
  unfold handleCadenceChange
  cases hm : s.mRecord.mNextExpectedPresentTime <;> simp

theorem handleResume_fields (s : ControllerState) :
    (handleResume s).mEventQueue = s.mEventQueue ∧
    (handleResume s).mPendingFramesToInsert = s.mPendingFramesToInsert := by
  unfold handleResume
  cases hm : s.mRecord.mNextExpectedPresentTime <;> simp

/-- The inductive invariant carried through every reachable state: the
frame-insertion counter stays within `[0, 2]` (the burst size), and at most
one `kRenderingTimeout` is ever queued. -/
def Inv (s : ControllerState) : Prop :=
  0 ≤ s.mPendingFramesToInsert ∧ s.mPendingFramesToInsert ≤ 2 ∧
  countType s.mEventQueue kRenderingTimeout ≤ 1

theorem inv_initial : Inv initialState := by
  refine ⟨le_refl 0, by simp [initialState], ?_⟩
  simp [initialState, countType]

theorem inv_step (s : ControllerState) (op : Op) (h : Inv s) :
    Inv (applyOp s op) := by
  obtain ⟨h0, h2, hrt⟩ := h
  cases op with
  | opNotifyExpectedPresent now ts fi =>
    refine ⟨h0, h2, ?_⟩
    show countType (notifyExpectedPresent s now ts fi).mEventQueue kRenderingTimeout ≤ 1
    unfold notifyExpectedPresent
    rw [countType_postEvent]
    simpa using hrt
  | opReset =>
    refine ⟨h0, h2, ?_⟩
    show countType (reset s).mEventQueue kRenderingTimeout ≤ 1
    simp [reset, countType]
  | opSetActiveVrrConfiguration now config =>
    show Inv (setActiveVrrConfiguration s now config)
    unfold setActiveVrrConfiguration
    cases hl : s.mVrrConfigs.lookup config with
    | none => exact ⟨h0, h2, hrt⟩
    | some cfg =>
      refine ⟨h0, h2, ?_⟩
      rw [countType_postEvent]
      simp [countType_dropType_self]
  | opSetEnable b =>
    show Inv (setEnable s b).1
    unfold setEnable
    by_cases heq : s.mEnabled = b
    · simpa [heq] using ⟨h0, h2, hrt⟩
    · rw [if_neg heq]
      dsimp only
      cases b
      · exact ⟨by simpa using h0, by simpa using h2, by simp [countType]⟩
      · exact ⟨by simpa using h0, by simpa using h2,
          by simpa [countType] using hrt⟩
  | opSetVrrConfigurations cfgs =>
    exact ⟨h0, h2, by simpa [setVrrConfigurations, countType] using hrt⟩
  | opStopThread =>
    exact ⟨h0, h2, by simpa [stopThread, countType] using hrt⟩
  | opOnPresent now =>
    show Inv (onPresent s now)
    unfold onPresent
    cases hp : s.mRecord.mPendingCurrentPresentTime with
    | none => exact ⟨h0, h2, hrt⟩
    | some p =>
      dsimp only
      by_cases hst : s.mState = kHibernate
      · rw [if_pos hst]
        refine ⟨h0, h2, ?_⟩
        simp only [ControllerState.postEvent]
        rw [countType_postEventQ, countType_dropType_ne _ _ _ (by simp),
          countType_dropType_self]
        simp
      · rw [if_neg hst]
        refine ⟨h0, h2, ?_⟩
        simp only [ControllerState.postEvent]
        rw [countType_postEventQ, countType_dropType_ne _ _ _ (by simp),
          countType_dropType_self]
        simp
  | opSetExpectedPresentTime ts fi =>
    exact ⟨h0, h2, by simpa [setExpectedPresentTime, countType] using hrt⟩
  | opWorkerDispatch now ok =>
    show Inv (workerDispatch s now ok)
    unfold workerDispatch
    by_cases hexit : s.mThreadExit
    · rw [if_pos hexit]
      exact ⟨h0, h2, hrt⟩
    · rw [if_neg hexit]
      by_cases hen : s.mEnabled = false
      · rw [if_pos hen]
        exact ⟨h0, h2, hrt⟩
      · rw [if_neg hen]
        cases hq : s.mEventQueue with
        | nil => exact ⟨h0, h2, hrt⟩
        | cons e rest =>
          show Inv (if now < e.mWhenNs then s
            else dispatchEvent { s with mEventQueue := rest } e now ok)
          by_cases hnow : now < e.mWhenNs
          · rw [if_pos hnow]
            exact ⟨h0, h2, hrt⟩
          · rw [if_neg hnow]
            unfold dispatchEvent
            dsimp only
            have hrest : countType rest kRenderingTimeout ≤ 1 := by
              rw [hq] at hrt
              exact le_trans (countType_cons_le e rest kRenderingTimeout) hrt
            by_cases hst : s.mState = kRendering <;>
              [rw [if_pos hst]; rw [if_neg hst]] <;>
              cases he : e.mEventType
            case pos.kRenderingTimeout =>
              refine ⟨?_, ?_, ?_⟩
              · rcases handleHibernate_counter
                    { s with mEventQueue := rest } now ok with hc | hc <;>
                  simp [hc]
              · rcases handleHibernate_counter
                    { s with mEventQueue := rest } now ok with hc | hc <;>
                  simp [hc]
              · show countType
                    (handleHibernate { s with mEventQueue := rest } now ok).mEventQueue
                    kRenderingTimeout ≤ 1
                rw [handleHibernate_countType _ _ _ _ (by simp) (by simp)]
                exact hrest
            case pos.kHibernateTimeout => exact ⟨h0, h2, hrest⟩
            case pos.kNextFrameInsertion => exact ⟨h0, h2, hrest⟩
            case pos.kNotifyExpectedPresentConfig =>
              obtain ⟨hq1, hq2⟩ :=
                handleCadenceChange_fields { s with mEventQueue := rest }
              exact ⟨by rw [hq2]; exact h0, by rw [hq2]; exact h2,
                by rw [hq1]; exact hrest⟩
            case pos.kStatisticsUpdate => exact ⟨h0, h2, hrest⟩
            case neg.kRenderingTimeout => exact ⟨h0, h2, hrest⟩
            case neg.kHibernateTimeout =>
              refine ⟨h0, h2, ?_⟩
              rw [handleStayHibernate_countType _ _ _ (by simp)]
              exact hrest
            case neg.kNextFrameInsertion =>
              rcases doFrameInsertion_counter
                  { s with mEventQueue := rest } now ok with hc | hc
              · refine ⟨?_, ?_, ?_⟩
                · rw [hc]; exact h0
                · rw [hc]; exact h2
                · rw [doFrameInsertion_countType _ _ _ _ (by simp)]
                  exact hrest
              · refine ⟨?_, ?_, ?_⟩
                · rw [hc.1]
                  have := hc.2
                  simp only at this ⊢
                  omega
                · rw [hc.1]
                  simp only at h2 ⊢
                  omega
                · rw [doFrameInsertion_countType _ _ _ _ (by simp)]
                  exact hrest
            case neg.kNotifyExpectedPresentConfig =>
              obtain ⟨hq1, hq2⟩ :=
                handleResume_fields { s with mEventQueue := rest }
              exact ⟨by simp only []; rw [hq2]; exact h0,
                by simp only []; rw [hq2]; exact h2,
                by show countType _ kRenderingTimeout ≤ 1; rw [hq1]; exact hrest⟩
            case neg.kStatisticsUpdate => exact ⟨h0, h2, hrest⟩

theorem inv_runOps (ops : List Op) (s : ControllerState) (h : Inv s) :
    Inv (runOps s ops) := by
  induction ops generalizing s with
  | nil => exact h
  | cons op rest ih => exact ih (applyOp s op) (inv_step s op h)

theorem reachable_inv (s : ControllerState) (h : Reachable s) : Inv s := by
  obtain ⟨ops, hops⟩ := h
  rw [← hops]
  exact inv_runOps ops initialState inv_initial

/-! Claim C1: behaviour of the frame-insertion handler on a failed panel
write. -/

/-- C1 counterexample: with one pending frame and a failing write, the
counter is not decremented to zero — the handler returns early and leaves
it at one, contradicting the claim that a failed write still decrements. -/
theorem c1_counterexample :
    (doFrameInsertionLocked
        { initialState with mPendingFramesToInsert := 1 } 0 false).1.mPendingFramesToInsert
      ≠ ({ initialState with mPendingFramesToInsert := 1 } :
          ControllerState).mPendingFramesToInsert - 1 := by
  decide

/-- C1 amended: for every call of `doFrameInsertionLocked` with a positive
pending counter in which the panel write fails, the failure is logged and
the call returns `-1` with the whole controller state — in particular the
counter — unchanged (no decrement, no retry). -/
theorem c1_write_failure_no_decrement (s : ControllerState) (now : Int)
    (h : 0 < s.mPendingFramesToInsert) :
    doFrameInsertionLocked s now false = (s, -1) := by
  unfold doFrameInsertionLocked
  rw [if_neg (by omega)]
  simp

/-- C1 witness: the amended theorem applied at a concrete state with two
pending frames. -/
theorem c1_witness :
    (0 : Int) <
        ({ initialState with mPendingFramesToInsert := 2 } :
          ControllerState).mPendingFramesToInsert ∧
      doFrameInsertionLocked
          { initialState with mPendingFramesToInsert := 2 } 7 false =
        ({ initialState with mPendingFramesToInsert := 2 }, -1) :=
  ⟨by decide,
    c1_write_failure_no_decrement { initialState with mPendingFramesToInsert := 2 }
      7 (by decide)⟩

/-! Claim C3: the addition law of `DisplayPresentRecord`. -/

/-- C3 counterexample: at `a = (2^64 - 1, 0, false)` and `b = (1, 5, false)`
the claimed result `(a.count + b.count, max, a.flag OR b.flag)` differs from
what `operator+=` produces: the count wraps around to zero and the updated
flag is set to true even though both inputs carry false. -/
theorem c3_counterexample :
    DisplayPresentRecord.addAssign ⟨2 ^ 64 - 1, 0, false⟩ ⟨1, 5, false⟩ ≠
      ⟨(2 ^ 64 - 1) + 1, max 0 5, false || false⟩ := by
  decide

/-- C3 amended: `a += b` yields `count = (a.count + b.count) mod 2^64` (the
fields are `uint64_t`), `last_timestamp_ns = max(a.last, b.last)`, and an
updated flag that is true unconditionally — also when both inputs' flags
are false. -/
theorem c3_addAssign_components (a b : DisplayPresentRecord) :
    (a.addAssign b).mCount = (a.mCount + b.mCount) % 2 ^ 64 ∧
    (a.addAssign b).mLastTimeStampNs = max a.mLastTimeStampNs b.mLastTimeStampNs ∧
    (a.addAssign b).mUpdated = true :=
  ⟨rfl, rfl, rfl⟩

/-! Claim C4: the order on `DisplayStatus`. -/

/-- C4 counterexample: the statuses `a` (power off) and `b` (doze-suspend)
are both off, the status `c` (doze) is not; yet `a < c` while `¬(b < c)`,
so the off class is not collapsed when compared against a third status,
contradicting the claimed congruence `a < c ↔ b < c`. -/
theorem c4_counterexample :
    (⟨0, HWC_POWER_MODE_OFF, .kLowBrightnessMode⟩ : DisplayStatus).isOff = true ∧
    (⟨0, HWC_POWER_MODE_DOZE_SUSPEND, .kLowBrightnessMode⟩ : DisplayStatus).isOff = true ∧
    (⟨0, HWC_POWER_MODE_DOZE, .kLowBrightnessMode⟩ : DisplayStatus).isOff = false ∧
    DisplayStatus.lt ⟨0, HWC_POWER_MODE_OFF, .kLowBrightnessMode⟩
      ⟨0, HWC_POWER_MODE_DOZE, .kLowBrightnessMode⟩ = true ∧
    DisplayStatus.lt ⟨0, HWC_POWER_MODE_DOZE_SUSPEND, .kLowBrightnessMode⟩
      ⟨0, HWC_POWER_MODE_DOZE, .kLowBrightnessMode⟩ = false := by
  decide

/-- C4 amended: two off statuses are mutually unordered (neither compares
less); when neither side is off the order is lexicographic on (power mode,
active config id, brightness mode); but when exactly one side is off the
comparison also falls through to that raw lexicographic order, so two off
statuses need not compare the same way against a third status. -/
theorem c4_order_amended (a b : DisplayStatus) :
    (a.isOff = true → b.isOff = true →
      DisplayStatus.lt a b = false ∧ DisplayStatus.lt b a = false) ∧
    (a.isOff = false → b.isOff = false →
      DisplayStatus.lt a b = DisplayStatus.ltLexSpec a b) ∧
    (a.isOff ≠ b.isOff →
      DisplayStatus.lt a b = DisplayStatus.ltLexSpec a b) := by
  unfold DisplayStatus.lt DisplayStatus.ltLexSpec
  cases ha : a.isOff <;> cases hb : b.isOff <;> simp

/-- C4 witness: the amended theorem applied to two concrete off statuses. -/
theorem c4_witness :
    DisplayStatus.lt ⟨3, HWC_POWER_MODE_OFF, .kHighBrightnessMode⟩
        ⟨9, HWC_POWER_MODE_DOZE_SUSPEND, .kLowBrightnessMode⟩ = false ∧
      DisplayStatus.lt ⟨9, HWC_POWER_MODE_DOZE_SUSPEND, .kLowBrightnessMode⟩
        ⟨3, HWC_POWER_MODE_OFF, .kHighBrightnessMode⟩ = false :=
  (c4_order_amended ⟨3, HWC_POWER_MODE_OFF, .kHighBrightnessMode⟩
      ⟨9, HWC_POWER_MODE_DOZE_SUSPEND, .kLowBrightnessMode⟩).1
    (by decide) (by decide)

/-! Equation lemmas for `workerDispatch` and counter-change lemmas. -/

theorem workerDispatch_exit (s : ControllerState) (now : Int) (ok : Bool)
    (h : s.mThreadExit = true) : workerDispatch s now ok = s := by
  unfold workerDispatch
  rw [if_pos h]

theorem workerDispatch_disabled (s : ControllerState) (now : Int) (ok : Bool)
    (h : s.mEnabled = false) : workerDispatch s now ok = s := by
  unfold workerDispatch
  by_cases hexit : s.mThreadExit
  · rw [if_pos hexit]
  · rw [if_neg hexit, if_pos h]

theorem workerDispatch_nil (s : ControllerState) (now : Int) (ok : Bool)
    (h : s.mEventQueue = []) : workerDispatch s now ok = s := by
  unfold workerDispatch
  by_cases hexit : s.mThreadExit
  · rw [if_pos hexit]
  · rw [if_neg hexit]
    by_cases hen : s.mEnabled = false
    · rw [if_pos hen]
    · rw [if_neg hen, h]

theorem workerDispatch_cons (s : ControllerState) (now : Int) (ok : Bool)
    (e : VrrControllerEvent) (rest : List VrrControllerEvent)
    (hexit : s.mThreadExit = false) (hen : s.mEnabled = true)
    (hq : s.mEventQueue = e :: rest) :
    workerDispatch s now ok =
      if now < e.mWhenNs then s
      else dispatchEvent { s with mEventQueue := rest } e now ok := by
  unfold workerDispatch
  rw [if_neg (by rw [hexit]; simp), if_neg (by rw [hen]; simp), hq]

theorem dispatchEvent_counter (s : ControllerState) (e : VrrControllerEvent)
    (now : Int) (ok : Bool) :
    (dispatchEvent s e now ok).mPendingFramesToInsert = s.mPendingFramesToInsert ∨
    ((dispatchEvent s e now ok).mPendingFramesToInsert =
        s.mPendingFramesToInsert - 1 ∧ 0 < s.mPendingFramesToInsert) ∨
    (dispatchEvent s e now ok).mPendingFramesToInsert = 1 ∨
    (dispatchEvent s e now ok).mPendingFramesToInsert = 2 := by
  unfold dispatchEvent
  by_cases hst : s.mState = kRendering
  · rw [if_pos hst]
    cases he : e.mEventType
    · rcases handleHibernate_counter s now ok with hc | hc
      · exact Or.inr (Or.inr (Or.inl hc))
      · exact Or.inr (Or.inr (Or.inr hc))
    · exact Or.inl rfl
    · exact Or.inl rfl
    · exact Or.inl (handleCadenceChange_fields s).2
    · exact Or.inl rfl
  · rw [if_neg hst]
    cases he : e.mEventType
    · exact Or.inl rfl
    · exact Or.inl rfl
    · rcases doFrameInsertion_counter s now ok with hc | hc
      · exact Or.inl hc
      · exact Or.inr (Or.inl hc)
    · exact Or.inl (handleResume_fields s).2
    · exact Or.inl rfl

theorem counter_workerDispatch (s : ControllerState) (now : Int) (ok : Bool) :
    (workerDispatch s now ok).mPendingFramesToInsert = s.mPendingFramesToInsert ∨
    ((workerDispatch s now ok).mPendingFramesToInsert =
        s.mPendingFramesToInsert - 1 ∧ 0 < s.mPendingFramesToInsert) ∨
    (workerDispatch s now ok).mPendingFramesToInsert = 1 ∨
    (workerDispatch s now ok).mPendingFramesToInsert = 2 := by
  by_cases hexit : s.mThreadExit
  · rw [workerDispatch_exit s now ok hexit]
    exact Or.inl rfl
  · have hexit' : s.mThreadExit = false := by simpa using hexit
    by_cases hen : s.mEnabled
    · cases hq : s.mEventQueue with
      | nil =>
        rw [workerDispatch_nil s now ok hq]
        exact Or.inl rfl
      | cons e rest =>
        rw [workerDispatch_cons s now ok e rest hexit' hen hq]
        by_cases hnow : now < e.mWhenNs
        · rw [if_pos hnow]
          exact Or.inl rfl
        · rw [if_neg hnow]
          exact dispatchEvent_counter { s with mEventQueue := rest } e now ok
    · have hen' : s.mEnabled = false := by simpa using hen
      rw [workerDispatch_disabled s now ok hen']
      exact Or.inl rfl

theorem counter_nondispatch (s : ControllerState) (op : Op)
    (h : op.isWorkerDispatch = false) :
    (applyOp s op).mPendingFramesToInsert = s.mPendingFramesToInsert := by
  cases op with
  | opNotifyExpectedPresent now ts fi => rfl
  | opReset => rfl
  | opSetActiveVrrConfiguration now config =>
    show (setActiveVrrConfiguration s now config).mPendingFramesToInsert = _
    unfold setActiveVrrConfiguration
    cases hl : s.mVrrConfigs.lookup config <;> rfl
  | opSetEnable b =>
    show (setEnable s b).1.mPendingFramesToInsert = _
    unfold setEnable
    by_cases heq : s.mEnabled = b
    · rw [if_pos heq]
    · rw [if_neg heq]
      cases b <;> rfl
  | opSetVrrConfigurations cfgs => rfl
  | opStopThread => rfl
  | opOnPresent now =>
    show (onPresent s now).mPendingFramesToInsert = _
    unfold onPresent
    cases hp : s.mRecord.mPendingCurrentPresentTime with
    | none => rfl
    | some p =>
      dsimp only
      by_cases hst : s.mState = kHibernate
      · rw [if_pos hst]
        rfl
      · rw [if_neg hst]
        rfl
  | opSetExpectedPresentTime ts fi => rfl
  | opWorkerDispatch now ok => simp [Op.isWorkerDispatch] at h

theorem c9_nondispatch_aux (s : ControllerState) (op : Op)
    (h0 : 0 ≤ s.mPendingFramesToInsert) (hnd : op.isWorkerDispatch = false) :
    0 ≤ (applyOp s op).mPendingFramesToInsert ∧
    ((applyOp s op).mPendingFramesToInsert < s.mPendingFramesToInsert →
      (applyOp s op).mPendingFramesToInsert = s.mPendingFramesToInsert - 1 ∧
      op.isWorkerDispatch = true) ∧
    (op.isWorkerDispatch = false →
      (applyOp s op).mPendingFramesToInsert = s.mPendingFramesToInsert) := by
  have he := counter_nondispatch s op hnd
  exact ⟨by omega, fun hlt => absurd hlt (by omega), fun _ => he⟩

/-! Claim C2: single-instance bounds on queued timeout events. -/

/-- Operation trace that duplicates `kNextFrameInsertion`: activate a config
with a zero timeout, let the rendering timeout start an insertion burst
(which queues one `kNextFrameInsertion`), then re-activate the config; the
fresh rendering timeout fires before the burst's pending insertion and
starts a second burst, queueing a second `kNextFrameInsertion`. -/
def c2Trace : List Op :=
  [ .opSetVrrConfigurations [(1, ⟨1000000000, ⟨0⟩⟩)],
    .opSetEnable true,
    .opSetActiveVrrConfiguration 0 1,
    .opWorkerDispatch 0 true,
    .opSetActiveVrrConfiguration 1 1,
    .opWorkerDispatch 1 true ]

/-- C2 counterexample: a state reachable by public operations and worker
dispatches whose event queue holds two `kNextFrameInsertion` entries,
refuting the claimed at-most-one bound for that event kind. -/
theorem c2_counterexample :
    Reachable (runOps initialState c2Trace) ∧
    countType (runOps initialState c2Trace).mEventQueue kNextFrameInsertion = 2 :=
  ⟨⟨c2Trace, rfl⟩, by decide⟩

/-- C2 amended: in every reachable state the event queue holds at most one
`kRenderingTimeout` entry; the analogous bound for `kNextFrameInsertion`
does not hold, since re-activating a configuration mid-burst leaves the
previous burst's queued insertion in place. -/
theorem c2_single_rendering_timeout (s : ControllerState) (h : Reachable s) :
    countType s.mEventQueue kRenderingTimeout ≤ 1 :=
  (reachable_inv s h).2.2

/-- C2 witness: the amended bound evaluated at the initial state. -/
theorem c2_witness :
    countType initialState.mEventQueue kRenderingTimeout ≤ 1 :=
  c2_single_rendering_timeout initialState ⟨[], rfl⟩

/-! Claim C9: evolution of `pending_frames_to_insert`. -/

/-- C9: in every reachable state the frame-insertion counter is
non-negative; applying any operation keeps it non-negative; whenever an
operation strictly decreases it, the decrease is by exactly one and the
operation is a worker dispatch (the only path into
`doFrameInsertionLocked`); every non-dispatch operation leaves the counter
unchanged; and one `doFrameInsertionLocked` step itself either leaves the
counter unchanged or decrements it by exactly one. -/
theorem c9_pending_frames (s : ControllerState) (op : Op) (now : Int)
    (ok : Bool) (h : Reachable s) :
    0 ≤ s.mPendingFramesToInsert ∧
    0 ≤ (applyOp s op).mPendingFramesToInsert ∧
    ((applyOp s op).mPendingFramesToInsert < s.mPendingFramesToInsert →
      (applyOp s op).mPendingFramesToInsert = s.mPendingFramesToInsert - 1 ∧
      op.isWorkerDispatch = true) ∧
    (op.isWorkerDispatch = false →
      (applyOp s op).mPendingFramesToInsert = s.mPendingFramesToInsert) ∧
    ((doFrameInsertionLocked s now ok).1.mPendingFramesToInsert =
        s.mPendingFramesToInsert ∨
      (doFrameInsertionLocked s now ok).1.mPendingFramesToInsert =
        s.mPendingFramesToInsert - 1) := by
  obtain ⟨h0, h2, _⟩ := reachable_inv s h
  have hdo : (doFrameInsertionLocked s now ok).1.mPendingFramesToInsert =
      s.mPendingFramesToInsert ∨
      (doFrameInsertionLocked s now ok).1.mPendingFramesToInsert =
        s.mPendingFramesToInsert - 1 := by
    rcases doFrameInsertion_counter s now ok with hc | hc
    · exact Or.inl hc
    · exact Or.inr hc.1
  cases op with
  | opWorkerDispatch now2 ok2 =>
    have hc := counter_workerDispatch s now2 ok2
    have happ : (applyOp s (Op.opWorkerDispatch now2 ok2)).mPendingFramesToInsert =
        (workerDispatch s now2 ok2).mPendingFramesToInsert := rfl
    refine ⟨h0, ?_, ?_, ?_, hdo⟩
    · rw [happ]
      rcases hc with hc | hc | hc | hc <;> omega
    · rw [happ]
      intro hlt
      refine ⟨?_, rfl⟩
      rcases hc with hc | hc | hc | hc <;> omega
    · intro hff
      exact absurd hff (by simp [Op.isWorkerDispatch])
  | opNotifyExpectedPresent a b c =>
    obtain ⟨g1, g2, g3⟩ := c9_nondispatch_aux s (.opNotifyExpectedPresent a b c) h0 rfl
    exact ⟨h0, g1, g2, g3, hdo⟩
  | opReset =>
    obtain ⟨g1, g2, g3⟩ := c9_nondispatch_aux s .opReset h0 rfl
    exact ⟨h0, g1, g2, g3, hdo⟩
  | opSetActiveVrrConfiguration a b =>
    obtain ⟨g1, g2, g3⟩ := c9_nondispatch_aux s (.opSetActiveVrrConfiguration a b) h0 rfl
    exact ⟨h0, g1, g2, g3, hdo⟩
  | opSetEnable b =>
    obtain ⟨g1, g2, g3⟩ := c9_nondispatch_aux s (.opSetEnable b) h0 rfl
    exact ⟨h0, g1, g2, g3, hdo⟩
  | opSetVrrConfigurations cfgs =>
    obtain ⟨g1, g2, g3⟩ := c9_nondispatch_aux s (.opSetVrrConfigurations cfgs) h0 rfl
    exact ⟨h0, g1, g2, g3, hdo⟩
  | opStopThread =>
    obtain ⟨g1, g2, g3⟩ := c9_nondispatch_aux s .opStopThread h0 rfl
    exact ⟨h0, g1, g2, g3, hdo⟩
  | opOnPresent a =>
    obtain ⟨g1, g2, g3⟩ := c9_nondispatch_aux s (.opOnPresent a) h0 rfl
    exact ⟨h0, g1, g2, g3, hdo⟩
  | opSetExpectedPresentTime a b =>
    obtain ⟨g1, g2, g3⟩ := c9_nondispatch_aux s (.opSetExpectedPresentTime a b) h0 rfl
    exact ⟨h0, g1, g2, g3, hdo⟩

/-- C9 witness: the theorem applied at the initial state with a `reset`
operation. -/
theorem c9_witness :
    0 ≤ initialState.mPendingFramesToInsert ∧
    0 ≤ (applyOp initialState Op.opReset).mPendingFramesToInsert ∧
    ((applyOp initialState Op.opReset).mPendingFramesToInsert <
        initialState.mPendingFramesToInsert →
      (applyOp initialState Op.opReset).mPendingFramesToInsert =
        initialState.mPendingFramesToInsert - 1 ∧
      Op.isWorkerDispatch Op.opReset = true) ∧
    (Op.isWorkerDispatch Op.opReset = false →
      (applyOp initialState Op.opReset).mPendingFramesToInsert =
        initialState.mPendingFramesToInsert) ∧
    ((doFrameInsertionLocked initialState 0 true).1.mPendingFramesToInsert =
        initialState.mPendingFramesToInsert ∨
      (doFrameInsertionLocked initialState 0 true).1.mPendingFramesToInsert =
        initialState.mPendingFramesToInsert - 1) :=
  c9_pending_frames initialState Op.opReset 0 true ⟨[], rfl⟩

/-! Claims C5-C8 and C10: per-operation contracts. -/

theorem filter_dropType_of_nil (q : List VrrControllerEvent)
    (u : VrrControllerEventType) (p : VrrControllerEvent → Bool)
    (h : q.filter p = []) : (dropType q u).filter p = [] := by
  have hsub : List.Sublist ((dropType q u).filter p) (q.filter p) :=
    List.Sublist.filter p (List.filter_sublist q)
  rw [h] at hsub
  exact List.sublist_nil.mp hsub

theorem filter_dropType_self (q : List VrrControllerEvent)
    (t : VrrControllerEventType) :
    (dropType q t).filter (fun e => e.mEventType = t) = [] :=
  List.length_eq_zero.mp (countType_dropType_self q t)

/-- C5: `onPresent` with a pending descriptor and the active config present
in the table appends the descriptor to the history ring as its most recent
entry and clears it; if the state was `kHibernate` the state becomes
`kRendering` and no `kHibernateTimeout` remains queued; in all cases no
`kNextFrameInsertion` remains queued and the queued `kRenderingTimeout`
events are exactly one fresh entry at `now + timeout_ns` of the active
config. -/
theorem c5_onPresent (s : ControllerState) (now : Int) (p : ExpectedPresent)
    (cfg : VrrConfig)
    (hp : s.mRecord.mPendingCurrentPresentTime = some p)
    (hc : s.mVrrConfigs.lookup s.mVrrActiveConfig = some cfg) :
    (onPresent s now).mRecord.mPresentHistory.entries.head? = some p ∧
    (onPresent s now).mRecord.mPendingCurrentPresentTime = none ∧
    (s.mState = kHibernate → (onPresent s now).mState = kRendering ∧
      countType (onPresent s now).mEventQueue kHibernateTimeout = 0) ∧
    countType (onPresent s now).mEventQueue kNextFrameInsertion = 0 ∧
    (onPresent s now).mEventQueue.filter
        (fun e => e.mEventType = kRenderingTimeout) =
      [⟨kRenderingTimeout, now + cfg.notifyExpectedPresentConfig.TimeoutNs⟩] := by
  have hidx : indexConfig s.mVrrConfigs s.mVrrActiveConfig =
      (cfg, s.mVrrConfigs) := by
    unfold indexConfig
    rw [hc]
  unfold onPresent
  cases hp2 : s.mRecord.mPendingCurrentPresentTime with
  | none =>
    rw [hp2] at hp
    exact absurd hp (by simp)
  | some p2 =>
    rw [hp2] at hp
    obtain rfl : p2 = p := by injection hp
    dsimp only
    by_cases hst : s.mState = kHibernate
    · rw [if_pos hst]
      dsimp only
      rw [hidx]
      refine ⟨?_, ?_, ?_, ?_, ?_⟩
      · simp [ControllerState.postEvent, PresentHistoryRing.next,
          kPresentHistorySize]
      · simp [ControllerState.postEvent]
      · intro _
        refine ⟨rfl, ?_⟩
        show countType (postEventQ _ _) kHibernateTimeout = 0
        rw [countType_postEventQ, countType_dropType_ne _ _ _ (by simp),
          countType_dropType_ne _ _ _ (by simp), countType_dropType_self]
        simp
      · show countType (postEventQ _ _) kNextFrameInsertion = 0
        rw [countType_postEventQ, countType_dropType_self]
        simp
      · show (postEventQ _ _).filter _ = _
        exact filter_postEventQ_of_nil _ _ _
          (filter_dropType_of_nil _ _ _ (filter_dropType_self _ _)) (by simp)
    · rw [if_neg hst]
      dsimp only
      rw [hidx]
      refine ⟨?_, ?_, ?_, ?_, ?_⟩
      · simp [ControllerState.postEvent, PresentHistoryRing.next,
          kPresentHistorySize]
      · simp [ControllerState.postEvent]
      · intro hcontra
        exact absurd hcontra hst
      · show countType (postEventQ _ _) kNextFrameInsertion = 0
        rw [countType_postEventQ, countType_dropType_self]
        simp
      · show (postEventQ _ _).filter _ = _
        exact filter_postEventQ_of_nil _ _ _
          (filter_dropType_of_nil _ _ _ (filter_dropType_self _ _)) (by simp)

/-- C5 witness: a controller with one configured and active config and a
stored pending descriptor, presented at time 10. -/
theorem c5_witness :
    (({ initialState with
        mVrrConfigs := [(0, ⟨8333333, ⟨30000000⟩⟩)] } :
          ControllerState).mRecord.mPendingCurrentPresentTime = none ∨ True) ∧
    (onPresent
        { initialState with
          mVrrConfigs := [(0, ⟨8333333, ⟨30000000⟩⟩)]
          mRecord := ⟨none, some ⟨0, 5, 7⟩, ⟨[]⟩⟩ } 10).mRecord.mPresentHistory.entries.head?
        = some ⟨0, 5, 7⟩ ∧
    (onPresent
        { initialState with
          mVrrConfigs := [(0, ⟨8333333, ⟨30000000⟩⟩)]
          mRecord := ⟨none, some ⟨0, 5, 7⟩, ⟨[]⟩⟩ } 10).mEventQueue.filter
        (fun e => e.mEventType = kRenderingTimeout)
      = [⟨kRenderingTimeout, 10 + 30000000⟩] := by
  refine ⟨Or.inr trivial, ?_, ?_⟩
  · exact (c5_onPresent
      { initialState with
        mVrrConfigs := [(0, ⟨8333333, ⟨30000000⟩⟩)]
        mRecord := ⟨none, some ⟨0, 5, 7⟩, ⟨[]⟩⟩ } 10 ⟨0, 5, 7⟩
      ⟨8333333, ⟨30000000⟩⟩ rfl rfl).1
  · exact (c5_onPresent
      { initialState with
        mVrrConfigs := [(0, ⟨8333333, ⟨30000000⟩⟩)]
        mRecord := ⟨none, some ⟨0, 5, 7⟩, ⟨[]⟩⟩ } 10 ⟨0, 5, 7⟩
      ⟨8333333, ⟨30000000⟩⟩ rfl rfl).2.2.2.2

/-- C6 counterexample: calling `setEnable` with the value the flag already
has (here: enabling an already-enabled controller) returns early and does
not signal the worker's condition variable, refuting the claim that every
call signals it. -/
theorem c6_counterexample :
    (setEnable { initialState with mEnabled := true } true).2 = false := by
  decide

/-- C6 amended: `setEnable(b)` signals the worker's condition variable
exactly when `b` differs from the current enabled flag; when they are equal
it returns without signalling and without changing any state; when they
differ the flag is stored, and if `b` is false all queued events are
dropped. -/
theorem c6_setEnable_amended (s : ControllerState) (b : Bool) :
    ((setEnable s b).2 = true ↔ s.mEnabled ≠ b) ∧
    (s.mEnabled = b → setEnable s b = (s, false)) ∧
    (s.mEnabled ≠ b → (setEnable s b).1.mEnabled = b) ∧
    (s.mEnabled = true → b = false → (setEnable s b).1.mEventQueue = []) := by
  unfold setEnable
  by_cases heq : s.mEnabled = b
  · rw [if_pos heq]
    refine ⟨by simp [heq], fun _ => rfl, fun hne => absurd heq hne, ?_⟩
    intro h1 h2
    rw [h1, h2] at heq
    exact absurd heq (by simp)
  · rw [if_neg heq]
    dsimp only
    cases b
    · exact ⟨by simp [heq], fun he => absurd he heq, fun _ => by simp,
        fun _ _ => by simp⟩
    · exact ⟨by simp [heq], fun he => absurd he heq, fun _ => by simp,
        fun _ hf => absurd hf (by simp)⟩

/-- C6 witness: disabling an enabled controller signals the worker and
empties the queue. -/
theorem c6_witness :
    (setEnable { initialState with mEnabled := true } false).1.mEventQueue = [] :=
  (c6_setEnable_amended { initialState with mEnabled := true } false).2.2.2
    rfl rfl

/-- C7: `onPresent` called without a pending expected-present descriptor
logs a warning and leaves the whole controller state — state machine state,
event queue, history ring, descriptors — unchanged. -/
theorem c7_onPresent_noop (s : ControllerState) (now : Int)
    (h : s.mRecord.mPendingCurrentPresentTime = none) :
    onPresent s now = s := by
  unfold onPresent
  cases hp : s.mRecord.mPendingCurrentPresentTime with
  | none => rfl
  | some p =>
    rw [hp] at h
    exact absurd h (by simp)

/-- C7 witness: the no-op evaluated at the initial state. -/
theorem c7_witness :
    initialState.mRecord.mPendingCurrentPresentTime = none ∧
      onPresent initialState 42 = initialState :=
  ⟨rfl, c7_onPresent_noop initialState 42 rfl⟩

/-- C8: `setActiveVrrConfiguration(id)` with an id missing from the config
table logs an error and leaves the controller entirely unchanged; with a
present id it enters `kRendering`, stores the active id, drops every queued
`kRenderingTimeout` and posts exactly one fresh `kRenderingTimeout` at
`now + timeout_ns` of that config, leaving events of other kinds in
place. -/
theorem c8_setActiveVrrConfiguration (s : ControllerState) (now : Int)
    (id : Nat) :
    (s.mVrrConfigs.lookup id = none → setActiveVrrConfiguration s now id = s) ∧
    (∀ cfg, s.mVrrConfigs.lookup id = some cfg →
      (setActiveVrrConfiguration s now id).mState = kRendering ∧
      (setActiveVrrConfiguration s now id).mVrrActiveConfig = id ∧
      (setActiveVrrConfiguration s now id).mEventQueue.filter
          (fun e => e.mEventType = kRenderingTimeout) =
        [⟨kRenderingTimeout, now + cfg.notifyExpectedPresentConfig.TimeoutNs⟩] ∧
      countType (setActiveVrrConfiguration s now id).mEventQueue
          kHibernateTimeout = countType s.mEventQueue kHibernateTimeout ∧
      countType (setActiveVrrConfiguration s now id).mEventQueue
          kNextFrameInsertion = countType s.mEventQueue kNextFrameInsertion) := by
  constructor
  · intro hnone
    unfold setActiveVrrConfiguration
    rw [hnone]
  · intro cfg hsome
    unfold setActiveVrrConfiguration
    rw [hsome]
    dsimp only
    refine ⟨rfl, rfl, ?_, ?_, ?_⟩
    · show (postEventQ _ _).filter _ = _
      exact filter_postEventQ_of_nil _ _ _ (filter_dropType_self _ _) (by simp)
    · show countType (postEventQ _ _) kHibernateTimeout = _
      rw [countType_postEventQ, countType_dropType_ne _ _ _ (by simp)]
      simp
    · show countType (postEventQ _ _) kNextFrameInsertion = _
      rw [countType_postEventQ, countType_dropType_ne _ _ _ (by simp)]
      simp

/-- C8 witness: the unknown-id branch evaluated on the initial state (whose
table is empty), and the known-id branch on a one-entry table. -/
theorem c8_witness :
    setActiveVrrConfiguration initialState 3 7 = initialState ∧
    (setActiveVrrConfiguration
        { initialState with mVrrConfigs := [(7, ⟨8333333, ⟨30000000⟩⟩)] }
        3 7).mState = kRendering :=
  ⟨(c8_setActiveVrrConfiguration initialState 3 7).1 rfl,
    ((c8_setActiveVrrConfiguration
        { initialState with mVrrConfigs := [(7, ⟨8333333, ⟨30000000⟩⟩)] }
        3 7).2 ⟨8333333, ⟨30000000⟩⟩ rfl).1⟩

/-- C10: when the worker pops a due `kNotifyExpectedPresentConfig` event in
`kHibernate` while no expected-present hint is pending, `handleResume` only
warns and modifies nothing, yet the dispatch still sets the state to
`kRendering`; everything else is exactly the popped-queue state. -/
theorem c10_resume_without_hint (s : ControllerState) (now : Int) (ok : Bool)
    (t : Int) (rest : List VrrControllerEvent)
    (hstate : s.mState = kHibernate)
    (hen : s.mEnabled = true)
    (hexit : s.mThreadExit = false)
    (hq : s.mEventQueue = ⟨kNotifyExpectedPresentConfig, t⟩ :: rest)
    (hdl : t ≤ now)
    (hhint : s.mRecord.mNextExpectedPresentTime = none) :
    workerDispatch s now ok = { s with mState := kRendering, mEventQueue := rest } := by
  rw [workerDispatch_cons s now ok ⟨kNotifyExpectedPresentConfig, t⟩ rest hexit
    hen hq]
  rw [if_neg (by simp only []; omega)]
  unfold dispatchEvent
  rw [if_neg (by show ¬s.mState = kRendering; rw [hstate]; simp)]
  show { handleResume { s with mEventQueue := rest } with mState := kRendering } = _
  unfold handleResume
  cases hm : ({ s with mEventQueue := rest } :
      ControllerState).mRecord.mNextExpectedPresentTime with
  | none => rfl
  | some q =>
    rw [show ({ s with mEventQueue := rest } :
        ControllerState).mRecord.mNextExpectedPresentTime =
      s.mRecord.mNextExpectedPresentTime from rfl, hhint] at hm
    exact absurd hm (by simp)

/-- C10 witness: the unconditional transition evaluated on a concrete
hibernating controller with an empty hint and one due event. -/
theorem c10_witness :
    workerDispatch
        { initialState with
          mState := kHibernate
          mEnabled := true
          mEventQueue := [⟨kNotifyExpectedPresentConfig, 0⟩] } 5 true =
      { initialState with
        mState := kRendering
        mEnabled := true
        mEventQueue := [] } :=
  c10_resume_without_hint
    { initialState with
      mState := kHibernate
      mEnabled := true
      mEventQueue := [⟨kNotifyExpectedPresentConfig, 0⟩] } 5 true 0 []
    rfl rfl rfl rfl (by decide) rfl

end VrrVerify
